import Mathlib

/-!
Verification of the logfire emission and export core against its source
(`src/logfire/_main.py`, plus the fallback-exporter behaviour described in
the specification).  Python dictionaries are embedded as association lists
in insertion order; Python floats relevant to the claims are embedded as
rationals; fallible calls return `Except`.
-/

/-- A Python value as it can appear in a logfire attribute mapping.
`other` stands for an arbitrary structured (non-primitive) object carrying an
opaque payload; `strList` stands for a Python `list`/`tuple` of strings
(tags, `null_args`). Python floats are embedded as rationals, which is exact
for every value the claims mention (`0`, `0.5`, `1`). -/
inductive PyValue where
  | none
  | bool (b : Bool)
  | int (i : Int)
  | float (q : ℚ)
  | str (s : String)
  | strList (l : List String)
  | other (payload : String)
deriving DecidableEq, Repr

/-- `isNull v` holds exactly on the Python `None` value. -/
def PyValue.isNull : PyValue → Bool
  | .none => true
  | _ => false

abbrev PyDict := List (String × PyValue)

/-- `d[k]` read access on a Python dict (first — and in a real dict only —
entry wins). -/
def dictLookup : PyDict → String → Option PyValue
  | [], _ => Option.none
  | (k', v) :: rest, k => if k' = k then some v else dictLookup rest k

/-- `d[k] = v` on a Python dict: replaces the value in place if the key is
present, otherwise appends the new entry (insertion order preserved). -/
def dictSet : PyDict → String → PyValue → PyDict
  | [], k, v => [(k, v)]
  | (k', v') :: rest, k, v =>
      if k' = k then (k, v) :: rest else (k', v') :: dictSet rest k v

/-- `d.pop(k, None)`: the looked-up value (if any) and the dict with the
entry removed. -/
def dictPop : PyDict → String → Option PyValue × PyDict
  | [], _ => (Option.none, [])
  | (k', v) :: rest, k =>
      if k' = k then (some v, rest)
      else
        let r := dictPop rest k
        (r.1, (k', v) :: r.2)

/-- `{**a, **b}`: keys of `a` in order (values overridden by `b` where
shared), then the new keys of `b` in order. -/
def dictMerge (a b : PyDict) : PyDict :=
  b.foldl (fun d kv => dictSet d kv.1 kv.2) a

/-- Reserved attribute keys.  The constants module of the repository is not
part of the sources shown; the key names are modelled from the
specification's list of reserved keys (the claims do not depend on the
literal spellings). -/
def ATTRIBUTES_MESSAGE_TEMPLATE_KEY : String := "logfire.msg_template"

def ATTRIBUTES_MESSAGE_KEY : String := "logfire.msg"

def ATTRIBUTES_TAGS_KEY : String := "logfire.tags"

def ATTRIBUTES_SAMPLE_RATE_KEY : String := "logfire.sample_rate"

def NULL_ARGS_KEY : String := "logfire.null_args"

def ATTRIBUTES_JSON_SCHEMA_KEY : String := "logfire.json_schema"

def ATTRIBUTES_VALIDATION_ERROR_KEY : String := "exception.logfire.data"

def ATTRIBUTES_LOG_LEVEL_NAME_KEY : String := "logfire.level_name"

def ATTRIBUTES_LOG_LEVEL_NUM_KEY : String := "logfire.level_num"

def ATTRIBUTES_SPAN_TYPE_KEY : String := "logfire.span_type"

/-- Modelled from the spec: the maximum OTLP integer size, `2^63 - 1`
(64-bit signed), from the constants module which is not under the shown
sources. -/
def OTLP_MAX_INT_SIZE : Int := 2 ^ 63 - 1

/-- `uniquify_sequence` from `_main.py`: remove duplicates from a sequence
preserving order, tracking the set of elements already seen. -/
def uniquifyAux {α : Type} [DecidableEq α] (seen : List α) : List α → List α
  | [] => []
  | x :: xs => if x ∈ seen then uniquifyAux seen xs else x :: uniquifyAux (x :: seen) xs

/-- `uniquify_sequence(seq)`: remove duplicates from a sequence preserving
order (the source iterates with a `seen` set starting empty). -/
def uniquify_sequence {α : Type} [DecidableEq α] (seq : List α) : List α :=
  uniquifyAux [] seq

/-- `_merge_tags_into_attributes(attributes, tags)`: merge the scope tags
into any tags already stored under the tags attribute key, returning the
deduplicated tag sequence (or `none` when empty) together with the
attributes dict with the tags key removed when it was present.  The
source's `cast('list[str]', ...)` assumes the stored value is a list of
strings; the model reads a `strList` value and defaults anything else to
`[]` (in Python a non-list there would raise, a case outside every claim's
domain). -/
def _merge_tags_into_attributes (attributes : PyDict) (tags : List String) :
    Option (List String) × PyDict :=
  match dictLookup attributes ATTRIBUTES_TAGS_KEY with
  | some v =>
      let existing : List String := match v with | .strList l => l | _ => []
      let res := existing ++ tags
      let attributes' := attributes.filter (fun kv => kv.1 ≠ ATTRIBUTES_TAGS_KEY)
      if res.isEmpty then (Option.none, attributes')
      else (some (uniquify_sequence res), attributes')
  | Option.none =>
      if tags.isEmpty then (Option.none, attributes)
      else (some (uniquify_sequence tags), attributes)

/-- The tag-merge operation of the spec's `TagSet.merge(existing_attr,
scope_tags)` contract, obtained by running `_merge_tags_into_attributes` on
an attribute dict holding exactly the optional existing tags attribute. -/
def mergeTags (existing : Option (List String)) (tags : List String) :
    Option (List String) :=
  (_merge_tags_into_attributes
    (match existing with
     | some l => [(ATTRIBUTES_TAGS_KEY, PyValue.strList l)]
     | Option.none => []) tags).1

/-- Deduplication keeping the first occurrence of each element, written
directly from the spec's words ("duplicates removed keeping first
occurrence") as the reference point for `uniquify_sequence`. -/
def dedupFirst {α : Type} [DecidableEq α] : List α → List α
  | [] => []
  | x :: xs => x :: dedupFirst (xs.filter (fun y => y ≠ x))
termination_by l => l.length
decreasing_by
  exact Nat.lt_succ_of_le (List.length_filter_le _ _)

/-- Modelled from the spec: `logfire_json_dumps` from the JSON-encoder
module (not under the shown sources; an external collaborator).  It
serializes any non-primitive value to a JSON string and never throws; the
exact output is opaque to every claim, so a simple total rendering is
used. -/
def logfire_json_dumps : PyValue → String
  | .strList l => "[" ++ String.intercalate "," (l.map (fun s => "\x22" ++ s ++ "\x22")) ++ "]"
  | .other payload => payload
  | .none => "null"
  | .bool b => if b then "true" else "false"
  | .int i => toString i
  | .float q => toString q
  | .str s => "\x22" ++ s ++ "\x22"

/-- The warning message emitted for an oversized integer, from the f-string
in `user_attributes`. -/
def oversizedIntWarning (i : Int) : String :=
  "Integer value " ++ toString i ++ " is larger than the maximum OTLP integer size of "
    ++ toString OTLP_MAX_INT_SIZE ++ " (64-bits),  if you need support for sending larger integers, please open a feature request"

/-- The loop of `user_attributes`: prepared entries, collected null keys and
emitted warnings, in iteration order.  A Python `bool` is an `int` by
`isinstance`, so it takes the integer branch; `True`/`False` never exceed
the bound so they pass through unchanged, matching the dedicated
constructor case here. -/
def userAttrsCore : PyDict → PyDict × List String × List String
  | [] => ([], [], [])
  | (k, v) :: rest =>
      let r := userAttrsCore rest
      match v with
      | .none => (r.1, k :: r.2.1, r.2.2)
      | .int i =>
          if i > OTLP_MAX_INT_SIZE then
            ((k, .str (toString i)) :: r.1, r.2.1, oversizedIntWarning i :: r.2.2)
          else ((k, .int i) :: r.1, r.2.1, r.2.2)
      | .bool b => ((k, .bool b) :: r.1, r.2.1, r.2.2)
      | .str s => ((k, .str s) :: r.1, r.2.1, r.2.2)
      | .float q => ((k, .float q) :: r.1, r.2.1, r.2.2)
      | .strList l => ((k, .str (logfire_json_dumps (.strList l))) :: r.1, r.2.1, r.2.2)
      | .other p => ((k, .str (logfire_json_dumps (.other p))) :: r.1, r.2.1, r.2.2)

/-- `user_attributes(attributes)`: prepare attributes for sending to
OpenTelemetry, returning the prepared dict together with the warnings
raised.  Null-valued keys are dropped from the primary map and collected
under `NULL_ARGS_KEY` as a tuple when any exist. -/
def user_attributes (attributes : PyDict) : PyDict × List String :=
  let r := userAttrsCore attributes
  (if r.2.1.isEmpty then r.1 else dictSet r.1 NULL_ARGS_KEY (.strList r.2.1), r.2.2)

/-- Python `value != 1` on the value popped from the sample-rate attribute:
false on the integer `1`, the float `1.0` and the boolean `True` (which
equals `1` in Python), true on everything else. -/
def PyValue.ne1 : PyValue → Bool
  | .int i => decide (i ≠ 1)
  | .float q => decide (q ≠ 1)
  | .bool b => !b
  | _ => true

/-- The sample-rate resolution step, shared verbatim by `Logfire._span`
(lines 178–184) and `Logfire.log` (lines 355–361) of `_main.py`.  Note the
Python conditional expression: `otlp_attributes.pop(...)` is evaluated only
when the instance-level rate is `None`, so with an instance-level rate set
an inline sample-rate attribute is never popped. -/
def applySampleRate (instanceRate : Option ℚ) (otlpAttributes : PyDict) : PyDict :=
  match instanceRate with
  | some r =>
      if r ≠ 1 then dictSet otlpAttributes ATTRIBUTES_SAMPLE_RATE_KEY (.float r)
      else otlpAttributes
  | Option.none =>
      let p := dictPop otlpAttributes ATTRIBUTES_SAMPLE_RATE_KEY
      match p.1 with
      | some v => if v.ne1 then dictSet p.2 ATTRIBUTES_SAMPLE_RATE_KEY v else p.2
      | Option.none => p.2

/-- The `Logfire` façade state: bound tags and optional instance-level
sample rate (the config object is an external collaborator and plays no
role in any claim). -/
structure Logfire where
  tags : List String
  sample_rate : Option ℚ
deriving DecidableEq, Repr

/-- `Logfire.with_trace_sample_rate(sample_rate)`: rejects a rate with
`sample_rate > 1 or sample_rate < 0`, otherwise returns a new instance with
the rate applied. -/
def Logfire.with_trace_sample_rate (lf : Logfire) (sample_rate : ℚ) :
    Except String Logfire :=
  if sample_rate > 1 ∨ sample_rate < 0 then
    .error "sample_rate must be between 0 and 1"
  else .ok { lf with sample_rate := some sample_rate }

/-- Modelled from the spec: `LEVEL_NUMBERS` from the constants module (not
under the shown sources).  The level names are the seven public log levels
of the façade; the numeric values are representative — no claim depends on
the particular numbers. -/
def LEVEL_NUMBERS : List (String × Int) :=
  [("trace", 1), ("debug", 5), ("info", 9), ("notice", 10),
   ("warn", 13), ("error", 17), ("fatal", 21)]

/-- Lookup of a level's number in `LEVEL_NUMBERS`. -/
def levelNumber (level : String) : Option Int :=
  (LEVEL_NUMBERS.find? (fun kv => kv.1 = level)).map Prod.snd

/-- The external collaborators a `log` call consumes: caller stack-location
attributes, the opaque message formatter, the JSON-schema result (an empty
result is `none`) and the timestamp generator's value. -/
structure LogExternals where
  stackInfo : PyDict
  fmt : String → PyDict → String
  jsonSchema : Option String
  now : Nat

/-- The observable outcome of a `log` call on the underlying tracer: the
span is started with the message as its name and the assembled attributes
at `now`, set to OK status and ended at the same timestamp. -/
structure EmittedLog where
  name : String
  attributes : PyDict
  startTime : Nat
  endTime : Nat
  statusOk : Bool
deriving DecidableEq, Repr

/-- The full result of a `log` call: emitted warnings plus the emitted
zero-duration span. -/
structure LogResult where
  warnings : List String
  record : EmittedLog

/-- The reserved head entries of a log record's OTLP attributes, in the
order the source writes them before splicing in the encoded user
attributes. -/
def logBaseAttributes (level : String) (level_no : Int)
    (msg_template msg : String) : PyDict :=
  [(ATTRIBUTES_SPAN_TYPE_KEY, .str "log"),
   (ATTRIBUTES_LOG_LEVEL_NAME_KEY, .str level),
   (ATTRIBUTES_LOG_LEVEL_NUM_KEY, .int level_no),
   (ATTRIBUTES_MESSAGE_TEMPLATE_KEY, .str msg_template),
   (ATTRIBUTES_MESSAGE_KEY, .str msg)]

/-- `Logfire.log(level, msg_template, attributes)` from `_main.py` lines
311–372: level validation and coercion, stack-info merge, tag merge,
message formatting, attribute encoding, JSON schema, tags, sample rate, and
emission of a zero-duration OK span. -/
def Logfire.log (lf : Logfire) (ext : LogExternals) (level : String)
    (msg_template : String) (attributes : PyDict) : LogResult :=
  let levelWarnings := if (levelNumber level).isNone then ["Invalid log level"] else []
  let level := if (levelNumber level).isNone then "error" else level
  let level_no := (levelNumber level).getD 0
  let merged := dictMerge ext.stackInfo attributes
  let tm := _merge_tags_into_attributes merged lf.tags
  let msg := ext.fmt msg_template tm.2
  let ua := user_attributes tm.2
  let otlp := dictMerge (logBaseAttributes level level_no msg_template msg) ua.1
  let otlp := match ext.jsonSchema with
    | some s => dictSet otlp ATTRIBUTES_JSON_SCHEMA_KEY (.str s)
    | Option.none => otlp
  let otlp := match tm.1 with
    | some ts => dictSet otlp ATTRIBUTES_TAGS_KEY (.strList ts)
    | Option.none => otlp
  let otlp := applySampleRate lf.sample_rate otlp
  { warnings := levelWarnings ++ ua.2,
    record := { name := msg, attributes := otlp, startTime := ext.now,
                endTime := ext.now, statusOk := true } }

/-- Python's `key.startswith('_')` as used by the public span/log methods
(the check inspects the first character; `String.startsWith` itself does
not reduce in the kernel, so the model matches on the character list). -/
def startsWithUnderscore (s : String) : Bool :=
  match s.data with
  | [] => false
  | c :: _ => c = '_'

/-- `Logfire.info(msg_template, **attributes)`: rejects underscore-prefixed
attribute keys at the public boundary, then delegates to `log` at level
`info` (all seven level methods share this exact shape). -/
def Logfire.info (lf : Logfire) (ext : LogExternals) (msg_template : String)
    (attributes : PyDict) : Except String LogResult :=
  if attributes.any (fun kv => startsWithUnderscore kv.1) then
    .error "Attribute keys cannot start with an underscore."
  else .ok (lf.log ext "info" msg_template attributes)

/-- Span status of the underlying OpenTelemetry span handle. -/
inductive SpanStatus where
  | unset
  | ok
  | error (description : String)
deriving DecidableEq, Repr

/-- An exception event recorded on a span. -/
structure SpanEvent where
  kindName : String
  message : String
  attributes : PyDict
  escaped : Bool
deriving DecidableEq, Repr

/-- Modelled from the spec: the underlying tracer's span handle (external
interface, §6): name, attributes, status, recorded events, recording flag
and end time.  Per the spec's guarantee, every mutation on a span that has
stopped recording is silently dropped. -/
structure OtelSpan where
  name : String
  attributes : PyDict
  status : SpanStatus
  events : List SpanEvent
  recording : Bool
  endTime : Option Nat
deriving DecidableEq, Repr

/-- `span.set_status(status)` on the underlying handle. -/
def OtelSpan.setStatus (s : OtelSpan) (st : SpanStatus) : OtelSpan :=
  if s.recording then { s with status := st } else s

/-- `span.set_attribute(key, value)` on the underlying handle. -/
def OtelSpan.setAttribute (s : OtelSpan) (k : String) (v : PyValue) : OtelSpan :=
  if s.recording then { s with attributes := dictSet s.attributes k v } else s

/-- `span.record_exception(...)` on the underlying handle: appends the
exception event. -/
def OtelSpan.recordException (s : OtelSpan) (ev : SpanEvent) : OtelSpan :=
  if s.recording then { s with events := s.events ++ [ev] } else s

/-- `span.end(t)` on the underlying handle: stops recording and fixes the
end time; a no-op if the span is no longer recording. -/
def OtelSpan.endAt (s : OtelSpan) (t : Nat) : OtelSpan :=
  if s.recording then { s with recording := false, endTime := some t } else s

/-- One frame of a captured traceback. -/
structure TracebackFrame where
  filename : String
  name : String
deriving DecidableEq, Repr

/-- `_filter_frames(stack)` from `_main.py`: drop the frames that belong to
the recorder itself (file ending in `logfire/_main.py` with a
underscore-prefixed function name). -/
def _filter_frames (frames : List TracebackFrame) : List TracebackFrame :=
  frames.filter (fun f =>
    !(f.filename.endsWith "logfire/_main.py" && f.name.startsWith "_"))

/-- An in-flight Python exception as `_exit_span` sees it: class name,
`str(exc_value)`, whether it is an `Exception` (false for the
cancellation-class `BaseException`s that `isinstance` filters out), the
optional pydantic validation payload, and the traceback stack. -/
structure PyException where
  kindName : String
  message : String
  isException : Bool
  validationJson : Option String
  stack : List TracebackFrame

/-- Modelled from the spec: `json_dumps_traceback` from the JSON-encoder
module (external); serializes the filtered structured traceback to a
transport-safe string whose exact content no claim depends on. -/
def json_dumps_traceback (frames : List TracebackFrame) : String :=
  String.intercalate ";" (frames.map (fun f => f.filename ++ ":" ++ f.name))

/-- The attributes attached to the recorded exception event in
`_exit_span`: the serialized filtered traceback, plus the validation
payload when the exception carries one. -/
def exceptionEventAttributes (e : PyException) : PyDict :=
  let attrs : PyDict :=
    [("exception.logfire.trace", .str (json_dumps_traceback (_filter_frames e.stack)))]
  match e.validationJson with
  | some j => attrs ++ [(ATTRIBUTES_VALIDATION_ERROR_KEY, .str j)]
  | Option.none => attrs

/-- `_exit_span(span, exc_type, exc_value, traceback)` from `_main.py`
lines 729–757: a no-op on a non-recording span; on a true `Exception` sets
error status `"{kind}: {message}"`, attaches the validation payload when
present, and records the exception event (escaped); otherwise — including
for a cancellation-class `BaseException` — sets OK status. -/
def _exit_span (span : OtelSpan) (exc : Option PyException) : OtelSpan :=
  if !span.recording then span
  else
    match exc with
    | some e =>
        if e.isException then
          let span := span.setStatus (.error (e.kindName ++ ": " ++ e.message))
          let span := match e.validationJson with
            | some j => span.setAttribute ATTRIBUTES_VALIDATION_ERROR_KEY (.str j)
            | Option.none => span
          span.recordException ⟨e.kindName, e.message, exceptionEventAttributes e, true⟩
        else span.setStatus .ok
    | Option.none => span.setStatus .ok

/-- The deferred-format state carried by a `LogfireSpan`. -/
structure FormatArgs where
  format_string : String
  kwargs : PyDict

/-- `LogfireSpan` from `_main.py`: name, pending OTLP attributes, the
`end_on_exit` flag, the context token, the deferred format state and the
underlying span handle (`None` until the span is entered). -/
structure LogfireSpan where
  span_name : String
  otlp_attributes : PyDict
  end_on_exit : Bool
  token : Option Nat
  format_args : FormatArgs
  spanHandle : Option OtelSpan

/-- `LogfireSpan.end()` (named `endSpan` because `end` is a Lean keyword):
raises `RuntimeError('Span has not been started')` when the underlying span
was never started, otherwise ends the underlying span only if it is still
recording. -/
def LogfireSpan.endSpan (s : LogfireSpan) (t : Nat) : Except String LogfireSpan :=
  match s.spanHandle with
  | Option.none => .error "Span has not been started"
  | some sp =>
      .ok { s with spanHandle := some (if sp.recording then sp.endAt t else sp) }

/-- The external collaborators a `_span` call consumes. -/
structure SpanExternals where
  stackInfo : PyDict
  fmt : String → PyDict → String
  jsonSchema : Option String

/-- `Logfire._span(msg_template, attributes, span_name=...)` from
`_main.py` lines 144–196: assembles the unstarted `LogfireSpan` and also
returns the warnings raised by attribute encoding. -/
def Logfire._span (lf : Logfire) (ext : SpanExternals) (msg_template : String)
    (attributes : PyDict) (span_name : Option String) : LogfireSpan × List String :=
  let merged := dictMerge ext.stackInfo attributes
  let merged := dictSet merged ATTRIBUTES_MESSAGE_TEMPLATE_KEY (.str msg_template)
  let tm := _merge_tags_into_attributes merged lf.tags
  let span_name_ := span_name.getD msg_template
  let format_kwargs := dictMerge [("span_name", .str span_name_)] tm.2
  let log_message := ext.fmt msg_template format_kwargs
  let merged := dictSet tm.2 ATTRIBUTES_MESSAGE_KEY (.str log_message)
  let ua := user_attributes merged
  let otlp := match ext.jsonSchema with
    | some s => dictSet ua.1 ATTRIBUTES_JSON_SCHEMA_KEY (.str s)
    | Option.none => ua.1
  let otlp := match tm.1 with
    | some ts => dictSet otlp ATTRIBUTES_TAGS_KEY (.strList ts)
    | Option.none => otlp
  let otlp := applySampleRate lf.sample_rate otlp
  ({ span_name := span_name_, otlp_attributes := otlp, end_on_exit := true,
     token := Option.none, format_args := ⟨msg_template, merged⟩,
     spanHandle := Option.none }, ua.2)

/-- `Logfire.span(msg_template, span_name=..., **attributes)` from
`_main.py` lines 225–252: rejects underscore-prefixed attribute keys at the
public boundary before any telemetry work, then delegates to `_span`. -/
def Logfire.span (lf : Logfire) (ext : SpanExternals) (msg_template : String)
    (span_name : Option String) (attributes : PyDict) :
    Except String (LogfireSpan × List String) :=
  if attributes.any (fun kv => startsWithUnderscore kv.1) then
    .error "Attribute keys cannot start with an underscore."
  else .ok (lf._span ext msg_template attributes span_name)

/-- The span-context fields a finished span carries in a batch. -/
structure SpanContextData where
  trace_id : Nat
  span_id : Nat
  is_remote : Bool
deriving DecidableEq, Repr

/-- A finished span as exported in a batch (the fields the fallback test
inspects: name, context, parent, times, attributes). -/
structure SpanData where
  name : String
  context : SpanContextData
  parent : Option SpanContextData
  start_time : Nat
  end_time : Nat
  attributes : PyDict
deriving DecidableEq, Repr

/-- Result of one sink export attempt. -/
inductive SpanExportResult where
  | SUCCESS
  | FAILURE
deriving DecidableEq, Repr

/-- Modelled from the spec: `FallbackSpanExporter.export(batch)` (the file
`logfire/_internal/exporters/fallback.py` is not under the shown sources;
behaviour per spec §4.6 and its tests, named `exportSpans` because `export`
is a Lean keyword).  The primary sink is a function that may raise (an
`Except.error` with the exception message); the fallback sink records the
batches it receives, threaded as a list.  A raising primary has the batch
forwarded to the fallback and the same exception re-raised; a `FAILURE`
result has the batch forwarded and `SUCCESS` returned; a `SUCCESS` result
leaves the fallback untouched. -/
def FallbackSpanExporter.exportSpans
    (primary : List SpanData → Except String SpanExportResult)
    (fallbackReceived : List (List SpanData)) (batch : List SpanData) :
    List (List SpanData) × Except String SpanExportResult :=
  match primary batch with
  | .error e => (fallbackReceived ++ [batch], .error e)
  | .ok .FAILURE => (fallbackReceived ++ [batch], .ok .SUCCESS)
  | .ok .SUCCESS => (fallbackReceived, .ok .SUCCESS)

/-- The concrete finished span of the fallback-exporter tests
(`test_fallback_exporter.py`): name `test`, trace and span id `1`, no
parent, times `0`–`1`, empty attributes. -/
def TEST_SPAN : SpanData :=
  { name := "test", context := { trace_id := 1, span_id := 1, is_remote := false },
    parent := Option.none, start_time := 0, end_time := 1, attributes := [] }

theorem dictLookup_dictSet_self (d : PyDict) (k : String) (v : PyValue) :
    dictLookup (dictSet d k v) k = some v := by
  induction d with
  | nil => simp [dictSet, dictLookup]
  | cons kv rest ih =>
      obtain ⟨a, b⟩ := kv
      by_cases h : a = k
      · subst h
        simp [dictSet, dictLookup]
      · simp [dictSet, dictLookup, h, ih]

theorem dictLookup_dictSet_ne (d : PyDict) (k' k : String) (v : PyValue) (h : k' ≠ k) :
    dictLookup (dictSet d k' v) k = dictLookup d k := by
  induction d with
  | nil => simp [dictSet, dictLookup, h]
  | cons kv rest ih =>
      obtain ⟨a, b⟩ := kv
      by_cases ha : a = k'
      · subst ha
        simp [dictSet, dictLookup, h]
      · by_cases hk : a = k
        · subst hk
          simp [dictSet, dictLookup, ha]
        · simp [dictSet, dictLookup, ha, hk, ih]

theorem dictLookup_eq_none (d : PyDict) (k : String) (h : k ∉ d.map Prod.fst) :
    dictLookup d k = Option.none := by
  induction d with
  | nil => rfl
  | cons kv rest ih =>
      obtain ⟨a, b⟩ := kv
      simp only [List.map_cons, List.mem_cons, not_or] at h
      have ha : a ≠ k := fun hh => h.1 hh.symm
      simp [dictLookup, ha, ih h.2]

theorem dictSet_of_not_mem (d : PyDict) (k : String) (v : PyValue)
    (h : k ∉ d.map Prod.fst) : dictSet d k v = d ++ [(k, v)] := by
  induction d with
  | nil => rfl
  | cons kv rest ih =>
      obtain ⟨a, b⟩ := kv
      simp only [List.map_cons, List.mem_cons, not_or] at h
      have ha : a ≠ k := fun hh => h.1 hh.symm
      simp [dictSet, ha, ih h.2]

theorem mem_dictSet (d : PyDict) (k : String) (v : PyValue) (kv : String × PyValue)
    (h : kv ∈ dictSet d k v) : kv ∈ d ∨ kv = (k, v) := by
  induction d with
  | nil =>
      simp only [dictSet, List.mem_singleton] at h
      exact Or.inr h
  | cons hd rest ih =>
      obtain ⟨a, b⟩ := hd
      by_cases ha : a = k
      · subst ha
        have hset : dictSet ((a, b) :: rest) a v = (a, v) :: rest := by
          simp [dictSet]
        rw [hset] at h
        rcases List.mem_cons.mp h with h | h
        · exact Or.inr h
        · exact Or.inl (List.mem_cons_of_mem _ h)
      · have hset : dictSet ((a, b) :: rest) k v = (a, b) :: dictSet rest k v := by
          simp [dictSet, ha]
        rw [hset] at h
        rcases List.mem_cons.mp h with h | h
        · exact Or.inl (by simp [h])
        · rcases ih h with h' | h'
          · exact Or.inl (List.mem_cons_of_mem _ h')
          · exact Or.inr h'

theorem map_fst_dictSet_mem (d : PyDict) (k : String) (v : PyValue) (x : String)
    (h : x ∈ (dictSet d k v).map Prod.fst) : x = k ∨ x ∈ d.map Prod.fst := by
  rcases List.mem_map.mp h with ⟨kv, hkv, hx⟩
  rcases mem_dictSet d k v kv hkv with h' | h'
  · exact Or.inr (hx ▸ List.mem_map_of_mem _ h')
  · subst h'
    exact Or.inl hx.symm

theorem dictPop_fst (d : PyDict) (k : String) : (dictPop d k).1 = dictLookup d k := by
  induction d with
  | nil => rfl
  | cons kv rest ih =>
      obtain ⟨a, b⟩ := kv
      by_cases ha : a = k <;> simp [dictPop, dictLookup, ha, ih]

theorem dictPop_of_lookup_none (d : PyDict) (k : String)
    (h : dictLookup d k = Option.none) : (dictPop d k).2 = d := by
  induction d with
  | nil => rfl
  | cons kv rest ih =>
      obtain ⟨a, b⟩ := kv
      by_cases ha : a = k
      · simp [dictLookup, ha] at h
      · simp only [dictLookup, if_neg ha] at h
        simp [dictPop, ha, ih h]

theorem dictLookup_dictPop_snd_ne (d : PyDict) (k' k : String) (h : k' ≠ k) :
    dictLookup (dictPop d k').2 k = dictLookup d k := by
  induction d with
  | nil => rfl
  | cons kv rest ih =>
      obtain ⟨a, b⟩ := kv
      by_cases ha : a = k'
      · subst ha
        simp [dictPop, dictLookup, h]
      · simp [dictPop, dictLookup, ha, ih]

theorem dictLookup_dictPop_snd_self (d : PyDict) (k : String)
    (h : (d.map Prod.fst).Nodup) : dictLookup (dictPop d k).2 k = Option.none := by
  induction d with
  | nil => rfl
  | cons kv rest ih =>
      obtain ⟨a, b⟩ := kv
      simp only [List.map_cons, List.nodup_cons] at h
      by_cases ha : a = k
      · subst ha
        simp only [dictPop, if_pos rfl]
        exact dictLookup_eq_none rest a h.1
      · simp [dictPop, dictLookup, ha, ih h.2]

theorem dictMerge_lookup_not_mem (a b : PyDict) (k : String)
    (h : k ∉ b.map Prod.fst) : dictLookup (dictMerge a b) k = dictLookup a k := by
  induction b generalizing a with
  | nil => rfl
  | cons kv rest ih =>
      simp only [List.map_cons, List.mem_cons, not_or] at h
      have step : dictMerge a (kv :: rest) = dictMerge (dictSet a kv.1 kv.2) rest := rfl
      rw [step, ih _ h.2, dictLookup_dictSet_ne _ _ _ _ (fun hh => h.1 hh.symm)]

theorem applySampleRate_lookup_ne (r : Option ℚ) (d : PyDict) (k : String)
    (h : k ≠ ATTRIBUTES_SAMPLE_RATE_KEY) :
    dictLookup (applySampleRate r d) k = dictLookup d k := by
  match r with
  | some q =>
      by_cases hq : q ≠ 1
      · simp only [applySampleRate, if_pos hq]
        exact dictLookup_dictSet_ne _ _ _ _ (Ne.symm h)
      · simp [applySampleRate, hq]
  | Option.none =>
      simp only [applySampleRate]
      rcases hp : (dictPop d ATTRIBUTES_SAMPLE_RATE_KEY).1 with _ | v
      · simp only []
        exact dictLookup_dictPop_snd_ne _ _ _ (Ne.symm h)
      · by_cases hv : v.ne1
        · simp only [hv, if_true]
          rw [dictLookup_dictSet_ne _ _ _ _ (Ne.symm h)]
          exact dictLookup_dictPop_snd_ne _ _ _ (Ne.symm h)
        · simp only [Bool.not_eq_true] at hv
          simp only [hv, Bool.false_eq_true, if_false]
          exact dictLookup_dictPop_snd_ne _ _ _ (Ne.symm h)

theorem dedupFirst_nil {α : Type} [DecidableEq α] : dedupFirst ([] : List α) = [] := by
  rw [dedupFirst]

theorem dedupFirst_cons {α : Type} [DecidableEq α] (x : α) (xs : List α) :
    dedupFirst (x :: xs) = x :: dedupFirst (xs.filter (fun y => y ≠ x)) := by
  rw [dedupFirst]

theorem mem_dedupFirst {α : Type} [DecidableEq α] (a : α) :
    ∀ l : List α, a ∈ dedupFirst l ↔ a ∈ l
  | [] => by rw [dedupFirst_nil]
  | x :: xs => by
      rw [dedupFirst_cons]
      have ih := mem_dedupFirst a (xs.filter (fun y => y ≠ x))
      constructor
      · intro h
        rcases List.mem_cons.mp h with h | h
        · exact List.mem_cons.mpr (Or.inl h)
        · rcases List.mem_filter.mp (ih.mp h) with ⟨hxs, _⟩
          exact List.mem_cons.mpr (Or.inr hxs)
      · intro h
        rcases List.mem_cons.mp h with h | h
        · exact List.mem_cons.mpr (Or.inl h)
        · by_cases hax : a = x
          · exact List.mem_cons.mpr (Or.inl hax)
          · refine List.mem_cons.mpr (Or.inr (ih.mpr (List.mem_filter.mpr ⟨h, ?_⟩)))
            simp [hax]
termination_by l => l.length
decreasing_by exact Nat.lt_succ_of_le (List.length_filter_le _ _)

theorem nodup_dedupFirst {α : Type} [DecidableEq α] :
    ∀ l : List α, (dedupFirst l).Nodup
  | [] => by rw [dedupFirst_nil]; exact List.nodup_nil
  | x :: xs => by
      rw [dedupFirst_cons]
      refine List.nodup_cons.mpr ⟨?_, nodup_dedupFirst (xs.filter (fun y => y ≠ x))⟩
      intro hx
      rw [mem_dedupFirst] at hx
      rcases List.mem_filter.mp hx with ⟨_, hne⟩
      simp at hne
termination_by l => l.length
decreasing_by exact Nat.lt_succ_of_le (List.length_filter_le _ _)

theorem uniquifyAux_eq {α : Type} [DecidableEq α] (seen : List α) (l : List α) :
    uniquifyAux seen l = dedupFirst (l.filter (fun y => decide (y ∉ seen))) := by
  induction l generalizing seen with
  | nil => rw [List.filter_nil, dedupFirst_nil, uniquifyAux]
  | cons x xs ih =>
      by_cases hx : x ∈ seen
      · have hcond : decide (x ∉ seen) = false := by simp [hx]
        rw [List.filter_cons, hcond]
        simp only [Bool.false_eq_true, if_false]
        rw [uniquifyAux, if_pos hx]
        exact ih seen
      · have hcond : decide (x ∉ seen) = true := by simp [hx]
        rw [List.filter_cons, hcond]
        simp only [if_true]
        rw [dedupFirst_cons, uniquifyAux, if_neg hx, ih (x :: seen)]
        congr 1
        rw [List.filter_filter]
        congr 1
        apply List.filter_congr
        intro y _
        by_cases h1 : y = x <;> by_cases h2 : y ∈ seen <;>
          simp [h1, h2]

theorem uniquify_sequence_eq_dedupFirst {α : Type} [DecidableEq α] (l : List α) :
    uniquify_sequence l = dedupFirst l := by
  rw [uniquify_sequence, uniquifyAux_eq]
  congr 1
  apply List.filter_eq_self.mpr
  intro a _
  simp

@[simp] theorem isNull_none : PyValue.none.isNull = true := rfl

@[simp] theorem isNull_bool (b : Bool) : (PyValue.bool b).isNull = false := rfl

@[simp] theorem isNull_int (i : Int) : (PyValue.int i).isNull = false := rfl

@[simp] theorem isNull_float (q : ℚ) : (PyValue.float q).isNull = false := rfl

@[simp] theorem isNull_str (s : String) : (PyValue.str s).isNull = false := rfl

@[simp] theorem isNull_strList (l : List String) : (PyValue.strList l).isNull = false := rfl

@[simp] theorem isNull_other (p : String) : (PyValue.other p).isNull = false := rfl

/-- The keys of the null-valued entries of an attribute mapping, in order. -/
def nullKeys (m : PyDict) : List String :=
  (m.filter (fun kv => kv.2.isNull)).map Prod.fst

theorem userAttrsCore_nulls (m : PyDict) :
    (userAttrsCore m).2.1 = nullKeys m := by
  unfold nullKeys
  induction m with
  | nil => rfl
  | cons kv rest ih =>
      obtain ⟨k, v⟩ := kv
      cases v with
      | int i =>
          by_cases hi : i > OTLP_MAX_INT_SIZE <;>
            simp [userAttrsCore, List.filter_cons, hi, ih]
      | _ => simp [userAttrsCore, List.filter_cons, ih]

theorem userAttrsCore_keys (m : PyDict) :
    ((userAttrsCore m).1).map Prod.fst
      = (m.filter (fun kv => !kv.2.isNull)).map Prod.fst := by
  induction m with
  | nil => rfl
  | cons kv rest ih =>
      obtain ⟨k, v⟩ := kv
      cases v with
      | int i =>
          by_cases hi : i > OTLP_MAX_INT_SIZE <;>
            simp [userAttrsCore, List.filter_cons, hi, ih]
      | _ => simp [userAttrsCore, List.filter_cons, ih]

theorem userAttrsCore_no_null (m : PyDict) :
    ∀ kv ∈ (userAttrsCore m).1, kv.2 ≠ PyValue.none := by
  induction m with
  | nil => intro kv h; cases h
  | cons hd rest ih =>
      obtain ⟨k, v⟩ := hd
      intro kv hkv
      cases v with
      | none =>
          simp only [userAttrsCore] at hkv
          exact ih kv hkv
      | int i =>
          by_cases hi : i > OTLP_MAX_INT_SIZE
          · simp [userAttrsCore, hi] at hkv
            rcases hkv with h | h
            · simp [h]
            · exact ih kv h
          · simp [userAttrsCore, hi] at hkv
            rcases hkv with h | h
            · simp [h]
            · exact ih kv h
      | bool b =>
          simp [userAttrsCore] at hkv
          rcases hkv with h | h
          · simp [h]
          · exact ih kv h
      | float q =>
          simp [userAttrsCore] at hkv
          rcases hkv with h | h
          · simp [h]
          · exact ih kv h
      | str s =>
          simp [userAttrsCore] at hkv
          rcases hkv with h | h
          · simp [h]
          · exact ih kv h
      | strList l =>
          simp [userAttrsCore] at hkv
          rcases hkv with h | h
          · simp [h]
          · exact ih kv h
      | other p =>
          simp [userAttrsCore] at hkv
          rcases hkv with h | h
          · simp [h]
          · exact ih kv h

theorem assoc_value_eq (m : PyDict) (h : (m.map Prod.fst).Nodup) (k : String)
    (v1 v2 : PyValue) (h1 : (k, v1) ∈ m) (h2 : (k, v2) ∈ m) : v1 = v2 := by
  induction m with
  | nil => cases h1
  | cons kv rest ih =>
      simp only [List.map_cons, List.nodup_cons] at h
      rcases List.mem_cons.mp h1 with e1 | e1 <;> rcases List.mem_cons.mp h2 with e2 | e2
      · have h12 : (k, v1) = (k, v2) := e1.trans e2.symm
        injection h12
      · exfalso
        apply h.1
        rw [← e1]
        show k ∈ rest.map Prod.fst
        exact List.mem_map_of_mem Prod.fst e2
      · exfalso
        apply h.1
        rw [← e2]
        show k ∈ rest.map Prod.fst
        exact List.mem_map_of_mem Prod.fst e1
      · exact ih h.2 e1 e2

/-- **C1**: for every batch and every primary sink whose export raises, the
fallback sink receives exactly the given batch (all span fields intact,
since the recorded batch is equal to the input) and the very same exception
is re-raised to the caller. -/
theorem c1_fallback_on_exception
    (primary : List SpanData → Except String SpanExportResult)
    (received : List (List SpanData)) (batch : List SpanData) (e : String)
    (h : primary batch = Except.error e) :
    FallbackSpanExporter.exportSpans primary received batch
      = (received ++ [batch], Except.error e) := by
  simp [FallbackSpanExporter.exportSpans, h]

/-- **C1** witness: the scenario of `test_fallback_on_exception` — a primary
raising `Bad, bad exporter 😉` on the batch `[TEST_SPAN]` leaves exactly
that batch at the fallback sink and re-raises the same exception. -/
theorem c1_fallback_on_exception_witness :
    FallbackSpanExporter.exportSpans
      (fun _ => Except.error "Bad, bad exporter 😉") [] [TEST_SPAN]
      = ([[TEST_SPAN]], Except.error "Bad, bad exporter 😉") :=
  c1_fallback_on_exception _ [] [TEST_SPAN] _ rfl

/-- **C2**: for every batch and every primary sink returning `FAILURE`
without raising, the fallback sink receives the batch unchanged and the
call returns `SUCCESS` to the caller. -/
theorem c2_fallback_on_failure
    (primary : List SpanData → Except String SpanExportResult)
    (received : List (List SpanData)) (batch : List SpanData)
    (h : primary batch = Except.ok SpanExportResult.FAILURE) :
    FallbackSpanExporter.exportSpans primary received batch
      = (received ++ [batch], Except.ok SpanExportResult.SUCCESS) := by
  simp [FallbackSpanExporter.exportSpans, h]

/-- **C2** witness: the scenario of `test_fallback_on_failure` — a primary
returning `FAILURE` on the batch `[TEST_SPAN]` leaves exactly that batch at
the fallback sink and the call reports success. -/
theorem c2_fallback_on_failure_witness :
    FallbackSpanExporter.exportSpans
      (fun _ => Except.ok SpanExportResult.FAILURE) [] [TEST_SPAN]
      = ([[TEST_SPAN]], Except.ok SpanExportResult.SUCCESS) :=
  c2_fallback_on_failure _ [] [TEST_SPAN] rfl

/-- **C3** counterexample: the claim quantifies over all integers with
`|v| > 2^63 - 1`, but the source only checks `value > OTLP_MAX_INT_SIZE`,
so the negative integer `-2^63 - 1` — whose absolute value exceeds
`2^63 - 1` — passes through unchanged as an integer (with no warning)
instead of being coerced to its decimal string. -/
theorem c3_counterexample :
    (Int.natAbs (-9223372036854775809) > 2 ^ 63 - 1)
    ∧ user_attributes [("k", PyValue.int (-9223372036854775809))]
        = ([("k", PyValue.int (-9223372036854775809))], [])
    ∧ PyValue.int (-9223372036854775809)
        ≠ PyValue.str (toString (-9223372036854775809 : Int)) := by
  refine ⟨by decide, by decide, by decide⟩

/-- **C3** (amended): attribute encoding coerces an integer to its exact
decimal string and raises the non-fatal oversize warning exactly when
`v > 2^63 - 1` (the encode call still succeeds); every other integer —
including arbitrarily large negative ones — passes through unchanged with
no warning. -/
theorem c3_integer_encoding (k : String) (v : Int) :
    (v > 2 ^ 63 - 1 →
      user_attributes [(k, PyValue.int v)]
        = ([(k, PyValue.str (toString v))], [oversizedIntWarning v]))
    ∧ (v ≤ 2 ^ 63 - 1 →
      user_attributes [(k, PyValue.int v)] = ([(k, PyValue.int v)], [])) := by
  constructor
  · intro h
    have hi : v > OTLP_MAX_INT_SIZE := h
    simp [user_attributes, userAttrsCore, hi]
  · intro h
    have hi : ¬v > OTLP_MAX_INT_SIZE := not_lt.mpr h
    simp [user_attributes, userAttrsCore, hi]

/-- **C3** witness: `2^63` is coerced to the string `"9223372036854775808"`
with the oversize warning, while `5` passes through unchanged. -/
theorem c3_integer_encoding_witness :
    user_attributes [("k", PyValue.int 9223372036854775808)]
      = ([("k", PyValue.str (toString (9223372036854775808 : Int)))],
         [oversizedIntWarning 9223372036854775808])
    ∧ user_attributes [("k", PyValue.int 5)] = ([("k", PyValue.int 5)], []) :=
  ⟨(c3_integer_encoding "k" 9223372036854775808).1 (by decide),
   (c3_integer_encoding "k" 5).2 (by decide)⟩

/-- **C5**: tag merge equals first-occurrence deduplication of the existing
tag attribute followed by the scope tags (existing values kept first), its
result never contains duplicates, it returns `none` exactly when the merged
sequence is empty, and in particular `merge(none, [])` is `none`. -/
theorem c5_tag_merge (a : Option (List String)) (b : List String) :
    mergeTags a b
      = (if (a.getD [] ++ b).isEmpty then Option.none
         else some (dedupFirst (a.getD [] ++ b)))
    ∧ ((mergeTags a b).getD []).Nodup
    ∧ (mergeTags a b = Option.none ↔ a.getD [] ++ b = [])
    ∧ mergeTags Option.none [] = Option.none := by
  have hmain : mergeTags a b
      = (if (a.getD [] ++ b).isEmpty then Option.none
         else some (dedupFirst (a.getD [] ++ b))) := by
    cases a with
    | none =>
        by_cases hb : b.isEmpty <;>
          simp [mergeTags, _merge_tags_into_attributes, dictLookup, hb,
            uniquify_sequence_eq_dedupFirst]
    | some l =>
        by_cases hb : (l ++ b).isEmpty <;>
          simp [mergeTags, _merge_tags_into_attributes, dictLookup, hb,
            uniquify_sequence_eq_dedupFirst]
  refine ⟨hmain, ?_, ?_, rfl⟩
  · rw [hmain]
    by_cases hb : (a.getD [] ++ b).isEmpty
    · simp [hb]
    · simp [hb, nodup_dedupFirst]
  · rw [hmain]
    by_cases hb : (a.getD [] ++ b).isEmpty
    · simp [hb, List.isEmpty_iff.mp hb]
    · have hne : a.getD [] ++ b ≠ [] := fun hc => hb (by simp [hc])
      simp [hb, hne]

theorem dictLookup_append_of_none (d1 d2 : PyDict) (k : String)
    (h : dictLookup d1 k = Option.none) :
    dictLookup (d1 ++ d2) k = dictLookup d2 k := by
  induction d1 with
  | nil => rfl
  | cons kv rest ih =>
      obtain ⟨a, b⟩ := kv
      by_cases ha : a = k
      · simp [dictLookup, ha] at h
      · simp only [dictLookup, if_neg ha] at h
        simp [dictLookup, ha, ih h]

/-- **C4** counterexample: the claim's "null_args entry iff at least one
null-valued key" fails when the mapping itself uses the reserved key — the
input `{NULL_ARGS_KEY: 1}` has no null value, yet the encoded result
contains an entry under the reserved null-args key. -/
theorem c4_counterexample :
    ([(NULL_ARGS_KEY, PyValue.int 1)].all (fun kv => !kv.2.isNull) = true)
    ∧ (user_attributes [(NULL_ARGS_KEY, PyValue.int 1)]).1
        = [(NULL_ARGS_KEY, PyValue.int 1)] := by
  constructor <;> decide

/-- **C4** (amended): for every attribute mapping (distinct keys) that does
not itself use the reserved null-args key, the encoding contains no null
values, carries exactly one null-args entry — listing precisely the
null-valued keys in order — iff the mapping had at least one null value,
and the null-valued keys are absent from the primary map. -/
theorem c4_null_args (m : PyDict)
    (hnodup : (m.map Prod.fst).Nodup)
    (hres : NULL_ARGS_KEY ∉ m.map Prod.fst) :
    (∀ kv ∈ (user_attributes m).1, kv.2 ≠ PyValue.none)
    ∧ dictLookup (user_attributes m).1 NULL_ARGS_KEY
        = (if nullKeys m = [] then Option.none
           else some (PyValue.strList (nullKeys m)))
    ∧ ((user_attributes m).1.filter (fun kv => kv.1 = NULL_ARGS_KEY)).length
        = (if nullKeys m = [] then 0 else 1)
    ∧ (∀ k ∈ nullKeys m, ∀ kv ∈ (user_attributes m).1, kv.1 ≠ k) := by
  have hkeys := userAttrsCore_keys m
  have hnulls := userAttrsCore_nulls m
  have hprep_no_na : NULL_ARGS_KEY ∉ ((userAttrsCore m).1).map Prod.fst := by
    rw [hkeys]
    intro hmem
    rcases List.mem_map.mp hmem with ⟨kv, hkv, hfst⟩
    exact hres (List.mem_map.mpr ⟨kv, List.mem_of_mem_filter hkv, hfst⟩)
  have hprep_ne : ∀ k ∈ nullKeys m, ∀ kv ∈ (userAttrsCore m).1, kv.1 ≠ k := by
    intro k hk kv hkv heq
    rcases List.mem_map.mp hk with ⟨kv0, hkv0, hfst0⟩
    have hkv0m := List.mem_of_mem_filter hkv0
    have hkv0n : kv0.2.isNull = true := (List.mem_filter.mp hkv0).2
    have hkvkeys : kv.1 ∈ ((userAttrsCore m).1).map Prod.fst :=
      List.mem_map.mpr ⟨kv, hkv, rfl⟩
    rw [hkeys] at hkvkeys
    rcases List.mem_map.mp hkvkeys with ⟨kv1, hkv1, hfst1⟩
    have hkv1m := List.mem_of_mem_filter hkv1
    have hkv1n : (!kv1.2.isNull) = true := (List.mem_filter.mp hkv1).2
    have e0 : (k, kv0.2) ∈ m := by
      rw [← hfst0, Prod.mk.eta]
      exact hkv0m
    have hfst1' : kv1.1 = k := hfst1.trans heq
    have e1 : (k, kv1.2) ∈ m := by
      rw [← hfst1', Prod.mk.eta]
      exact hkv1m
    have := assoc_value_eq m hnodup k kv1.2 kv0.2 e1 e0
    rw [this] at hkv1n
    rw [hkv0n] at hkv1n
    simp at hkv1n
  by_cases hn : nullKeys m = []
  · have hua : (user_attributes m).1 = (userAttrsCore m).1 := by
      simp [user_attributes, hnulls, hn]
    refine ⟨?_, ?_, ?_, ?_⟩
    · rw [hua]
      exact userAttrsCore_no_null m
    · rw [hua, if_pos hn]
      exact dictLookup_eq_none _ _ hprep_no_na
    · rw [hua, if_pos hn, List.length_eq_zero, List.filter_eq_nil_iff]
      intro kv hkv hpred
      apply hprep_no_na
      have : kv.1 = NULL_ARGS_KEY := by simpa using hpred
      exact this ▸ List.mem_map.mpr ⟨kv, hkv, rfl⟩
    · intro k hk kv hkv
      rw [hua] at hkv
      exact hprep_ne k hk kv hkv
  · have hempty : (nullKeys m).isEmpty = false := by
      simpa [List.isEmpty_iff] using hn
    have hua : (user_attributes m).1
        = (userAttrsCore m).1 ++ [(NULL_ARGS_KEY, PyValue.strList (nullKeys m))] := by
      simp only [user_attributes, hnulls, hempty, Bool.false_eq_true, if_false]
      exact dictSet_of_not_mem _ _ _ hprep_no_na
    refine ⟨?_, ?_, ?_, ?_⟩
    · intro kv hkv
      rw [hua] at hkv
      rcases List.mem_append.mp hkv with h | h
      · exact userAttrsCore_no_null m kv h
      · rcases List.mem_singleton.mp h with rfl
        simp
    · rw [hua, if_neg hn,
        dictLookup_append_of_none _ _ _ (dictLookup_eq_none _ _ hprep_no_na)]
      simp [dictLookup]
    · rw [hua, if_neg hn, List.filter_append]
      have h1 : ((userAttrsCore m).1).filter (fun kv => kv.1 = NULL_ARGS_KEY) = [] := by
        rw [List.filter_eq_nil_iff]
        intro kv hkv hpred
        apply hprep_no_na
        have : kv.1 = NULL_ARGS_KEY := by simpa using hpred
        exact this ▸ List.mem_map.mpr ⟨kv, hkv, rfl⟩
      rw [h1]
      simp
    · intro k hk kv hkv
      rw [hua] at hkv
      rcases List.mem_append.mp hkv with h | h
      · exact hprep_ne k hk kv h
      · rcases List.mem_singleton.mp h with rfl
        intro heq
        apply hres
        have heq' : NULL_ARGS_KEY = k := heq
        rw [heq']
        rcases List.mem_map.mp hk with ⟨kv0, hkv0, hfst0⟩
        exact List.mem_map.mpr ⟨kv0, List.mem_of_mem_filter hkv0, hfst0⟩

/-- **C4** witness: the mapping `{a: None, b: 1}` — the encoding drops `a`,
keeps `b`, and carries exactly one null-args entry listing `a`. -/
theorem c4_null_args_witness :
    (∀ kv ∈ (user_attributes [("a", PyValue.none), ("b", PyValue.int 1)]).1,
      kv.2 ≠ PyValue.none)
    ∧ dictLookup (user_attributes [("a", PyValue.none), ("b", PyValue.int 1)]).1
        NULL_ARGS_KEY
        = (if nullKeys [("a", PyValue.none), ("b", PyValue.int 1)] = [] then Option.none
           else some (PyValue.strList (nullKeys [("a", PyValue.none), ("b", PyValue.int 1)])))
    ∧ ((user_attributes [("a", PyValue.none), ("b", PyValue.int 1)]).1.filter
        (fun kv => kv.1 = NULL_ARGS_KEY)).length
        = (if nullKeys [("a", PyValue.none), ("b", PyValue.int 1)] = [] then 0 else 1)
    ∧ (∀ k ∈ nullKeys [("a", PyValue.none), ("b", PyValue.int 1)],
        ∀ kv ∈ (user_attributes [("a", PyValue.none), ("b", PyValue.int 1)]).1,
          kv.1 ≠ k) :=
  c4_null_args _ (by decide) (by decide)

/-- **C6**: on a recording span, exiting with a user exception sets error
status with description `"{kind}: {message}"` and records the exception as
a span event; exiting with a cancellation-class exception (a
`BaseException` that is not an `Exception`) captures nothing and sets OK
status, not error. -/
theorem c6_exit_span (span : OtelSpan) (e : PyException)
    (hrec : span.recording = true) :
    (e.isException = true →
      (_exit_span span (some e)).status
          = SpanStatus.error (e.kindName ++ ": " ++ e.message)
      ∧ (_exit_span span (some e)).events
          = span.events ++ [⟨e.kindName, e.message, exceptionEventAttributes e, true⟩])
    ∧ (e.isException = false →
      (_exit_span span (some e)).status = SpanStatus.ok
      ∧ (_exit_span span (some e)).events = span.events) := by
  constructor
  · intro hexc
    cases hval : e.validationJson <;>
      simp [_exit_span, hrec, hexc, hval, OtelSpan.setStatus, OtelSpan.setAttribute,
        OtelSpan.recordException]
  · intro hexc
    simp [_exit_span, hrec, hexc, OtelSpan.setStatus]

/-- **C6** witness: a `ValueError` with message `boom` yields status
description `ValueError: boom` and a recorded event; a cancellation-class
exception leaves status OK with no recorded event. -/
theorem c6_exit_span_witness :
    ((_exit_span ⟨"s", [], SpanStatus.unset, [], true, Option.none⟩
        (some ⟨"ValueError", "boom", true, Option.none, []⟩)).status
      = SpanStatus.error "ValueError: boom"
     ∧ (_exit_span ⟨"s", [], SpanStatus.unset, [], true, Option.none⟩
        (some ⟨"ValueError", "boom", true, Option.none, []⟩)).events
      = [] ++ [⟨"ValueError", "boom",
          exceptionEventAttributes ⟨"ValueError", "boom", true, Option.none, []⟩, true⟩])
    ∧ ((_exit_span ⟨"s", [], SpanStatus.unset, [], true, Option.none⟩
        (some ⟨"CancelledError", "", false, Option.none, []⟩)).status = SpanStatus.ok
     ∧ (_exit_span ⟨"s", [], SpanStatus.unset, [], true, Option.none⟩
        (some ⟨"CancelledError", "", false, Option.none, []⟩)).events = []) :=
  ⟨(c6_exit_span _ _ rfl).1 rfl, (c6_exit_span _ _ rfl).2 rfl⟩

/-- **C7**: on a `LogfireSpan` that has been started, calling `end()` twice
is observably equal to calling it once (the second call is a silent no-op
because the underlying span is no longer recording); on a never-started
`LogfireSpan`, `end()` fails with the invalid-state error. -/
theorem c7_end_idempotent (s : LogfireSpan) (t1 t2 : Nat) :
    (∀ sp, s.spanHandle = some sp →
      (s.endSpan t1).bind (fun s' => s'.endSpan t2) = s.endSpan t1)
    ∧ (s.spanHandle = Option.none →
      s.endSpan t1 = Except.error "Span has not been started") := by
  constructor
  · intro sp hsp
    by_cases hrecd : sp.recording
    · simp [LogfireSpan.endSpan, hsp, hrecd, OtelSpan.endAt, Except.bind]
    · simp [LogfireSpan.endSpan, hsp, hrecd, Except.bind]
  · intro h
    simp [LogfireSpan.endSpan, h]

/-- **C7** witness: a concrete started span ended at `1` then `2` equals it
ended once at `1`; a never-started span's `end()` raises the
invalid-state error. -/
theorem c7_end_idempotent_witness :
    (((⟨"s", [], true, Option.none, ⟨"t", []⟩,
        some ⟨"s", [], SpanStatus.unset, [], true, Option.none⟩⟩ : LogfireSpan).endSpan 1).bind
      (fun s' => s'.endSpan 2)
      = (⟨"s", [], true, Option.none, ⟨"t", []⟩,
          some ⟨"s", [], SpanStatus.unset, [], true, Option.none⟩⟩ : LogfireSpan).endSpan 1)
    ∧ (⟨"s", [], true, Option.none, ⟨"t", []⟩, Option.none⟩ : LogfireSpan).endSpan 3
      = Except.error "Span has not been started" :=
  ⟨(c7_end_idempotent _ 1 2).1 _ rfl, (c7_end_idempotent _ 3 0).2 rfl⟩

/-- **C8** counterexample: the claim fails in two places.  A sample rate of
`0` — outside the claimed valid range `(0, 1]` — is accepted by
`with_trace_sample_rate` (the source only rejects `> 1` or `< 0`), and the
public `log` call performs no underscore check at all: an attribute keyed
`_x` flows straight into the emitted record instead of raising. -/
theorem c8_counterexample :
    Logfire.with_trace_sample_rate ⟨[], Option.none⟩ 0 = Except.ok ⟨[], some 0⟩
    ∧ ¬(0 : ℚ) < 0
    ∧ dictLookup
        (Logfire.log ⟨[], Option.none⟩ ⟨[], fun _ _ => "m", Option.none, 0⟩ "info" "t"
          [("_x", PyValue.int 1)]).record.attributes "_x" = some (PyValue.int 1) :=
  ⟨rfl, lt_irrefl 0, by decide⟩

/-- **C8** (amended): the keyword-attribute entry points (`span` and the
seven level methods, represented by `info`) reject an underscore-prefixed
attribute key synchronously at the call boundary with the invalid-argument
error before any telemetry work (the lower-level `log` method performs no
such check), and `with_trace_sample_rate` rejects exactly the rates outside
`[0, 1]`: rates `> 1` or `< 0` raise, while every rate in `[0, 1]` —
including `0` — is accepted. -/
theorem c8_usage_errors (lf : Logfire) (ext : SpanExternals) (extL : LogExternals)
    (tmpl : String) (sn : Option String) (attrs : PyDict) (r : ℚ) :
    (attrs.any (fun kv => startsWithUnderscore kv.1) = true →
      lf.span ext tmpl sn attrs
          = Except.error "Attribute keys cannot start with an underscore."
      ∧ lf.info extL tmpl attrs
          = Except.error "Attribute keys cannot start with an underscore.")
    ∧ (r > 1 ∨ r < 0 →
      lf.with_trace_sample_rate r = Except.error "sample_rate must be between 0 and 1")
    ∧ (0 ≤ r → r ≤ 1 →
      lf.with_trace_sample_rate r = Except.ok ⟨lf.tags, some r⟩) := by
  refine ⟨?_, ?_, ?_⟩
  · intro h
    constructor <;> simp [Logfire.span, Logfire.info, h]
  · intro h
    simp [Logfire.with_trace_sample_rate, h]
  · intro h0 h1
    have hcond : ¬(r > 1 ∨ r < 0) := by
      push_neg
      exact ⟨h1, h0⟩
    unfold Logfire.with_trace_sample_rate
    rw [if_neg hcond]

/-- **C8** witness: `span` and `info` reject the key `_x`;
`with_trace_sample_rate 2` raises; `with_trace_sample_rate (1/2)`
succeeds. -/
theorem c8_usage_errors_witness :
    Logfire.span ⟨[], Option.none⟩ ⟨[], fun _ _ => "m", Option.none⟩ "t" Option.none
        [("_x", PyValue.int 1)]
      = Except.error "Attribute keys cannot start with an underscore."
    ∧ Logfire.info ⟨[], Option.none⟩ ⟨[], fun _ _ => "m", Option.none, 0⟩ "t"
        [("_x", PyValue.int 1)]
      = Except.error "Attribute keys cannot start with an underscore."
    ∧ Logfire.with_trace_sample_rate ⟨[], Option.none⟩ 2
      = Except.error "sample_rate must be between 0 and 1"
    ∧ Logfire.with_trace_sample_rate ⟨[], Option.none⟩ (1/2)
      = Except.ok ⟨[], some (1/2)⟩ := by
  have h := c8_usage_errors ⟨[], Option.none⟩ ⟨[], fun _ _ => "m", Option.none⟩
    ⟨[], fun _ _ => "m", Option.none, 0⟩ "t" Option.none [("_x", PyValue.int 1)] 2
  have h2 := c8_usage_errors ⟨[], Option.none⟩ ⟨[], fun _ _ => "m", Option.none⟩
    ⟨[], fun _ _ => "m", Option.none, 0⟩ "t" Option.none [("_x", PyValue.int 1)] (1/2)
  exact ⟨(h.1 (by decide)).1, (h.1 (by decide)).2, h.2.1 (Or.inl (by norm_num)),
    h2.2.2 (by norm_num) (by norm_num)⟩

/-- **C9** counterexample: with an instance-level sample rate of exactly
`1`, the inline pop never runs (Python evaluates the conditional
expression's else-branch only when the instance rate is `None`), so a log
call whose attributes carry an inline sample-rate of `1` emits that
attribute even though the resolved rate is exactly `1`. -/
theorem c9_counterexample :
    dictLookup
      (Logfire.log ⟨[], some 1⟩ ⟨[], fun _ _ => "m", Option.none, 0⟩ "info" "t"
        [(ATTRIBUTES_SAMPLE_RATE_KEY, PyValue.float 1)]).record.attributes
      ATTRIBUTES_SAMPLE_RATE_KEY = some (PyValue.float 1) := by
  decide

/-- **C9** (amended): when the instance-level rate is unset, the inline
sample-rate attribute is popped and re-emitted exactly when its value
differs from `1`, so a resolved rate of `1` is then never emitted and any
other resolved rate (e.g. `0.5`) is; a set instance-level rate takes
precedence and is written (overwriting any inline value) exactly when it
differs from `1` — but an instance-level rate of exactly `1` leaves the
attributes untouched, so a pre-existing inline sample-rate attribute
survives to the wire. -/
theorem c9_sample_rate (r : ℚ) (v : PyValue) (attrs : PyDict)
    (hnodup : (attrs.map Prod.fst).Nodup) :
    (applySampleRate (some 1) attrs = attrs)
    ∧ (r ≠ 1 →
        dictLookup (applySampleRate (some r) attrs) ATTRIBUTES_SAMPLE_RATE_KEY
          = some (PyValue.float r))
    ∧ (dictLookup attrs ATTRIBUTES_SAMPLE_RATE_KEY = some v → v.ne1 = true →
        dictLookup (applySampleRate Option.none attrs) ATTRIBUTES_SAMPLE_RATE_KEY
          = some v)
    ∧ (dictLookup attrs ATTRIBUTES_SAMPLE_RATE_KEY = some v → v.ne1 = false →
        dictLookup (applySampleRate Option.none attrs) ATTRIBUTES_SAMPLE_RATE_KEY
          = Option.none)
    ∧ (dictLookup attrs ATTRIBUTES_SAMPLE_RATE_KEY = Option.none →
        applySampleRate Option.none attrs = attrs) := by
  refine ⟨?_, ?_, ?_, ?_, ?_⟩
  · simp [applySampleRate]
  · intro h
    simp only [applySampleRate, if_pos h]
    exact dictLookup_dictSet_self _ _ _
  · intro hv hne
    rcases hdp : dictPop attrs ATTRIBUTES_SAMPLE_RATE_KEY with ⟨pf, ps⟩
    have hpf : pf = some v := by
      have hfst := dictPop_fst attrs ATTRIBUTES_SAMPLE_RATE_KEY
      rw [hdp] at hfst
      exact hfst.trans hv
    subst hpf
    simp only [applySampleRate, hdp, hne, if_true]
    exact dictLookup_dictSet_self _ _ _
  · intro hv hne
    rcases hdp : dictPop attrs ATTRIBUTES_SAMPLE_RATE_KEY with ⟨pf, ps⟩
    have hpf : pf = some v := by
      have hfst := dictPop_fst attrs ATTRIBUTES_SAMPLE_RATE_KEY
      rw [hdp] at hfst
      exact hfst.trans hv
    subst hpf
    simp only [applySampleRate, hdp, hne, Bool.false_eq_true, if_false]
    have hsnd := dictLookup_dictPop_snd_self attrs ATTRIBUTES_SAMPLE_RATE_KEY hnodup
    rw [hdp] at hsnd
    exact hsnd
  · intro hnone
    rcases hdp : dictPop attrs ATTRIBUTES_SAMPLE_RATE_KEY with ⟨pf, ps⟩
    have hpf : pf = Option.none := by
      have hfst := dictPop_fst attrs ATTRIBUTES_SAMPLE_RATE_KEY
      rw [hdp] at hfst
      exact hfst.trans hnone
    subst hpf
    simp only [applySampleRate, hdp]
    have hsnd := dictPop_of_lookup_none attrs ATTRIBUTES_SAMPLE_RATE_KEY hnone
    rw [hdp] at hsnd
    exact hsnd

/-- **C9** witness: instance rate `1` over an inline entry of `1` leaves
the attributes untouched; instance rate `1/2` is emitted; an inline `1/2`
with no instance rate is re-emitted; an inline `1` with no instance rate is
dropped; no inline entry and no instance rate is a no-op. -/
theorem c9_sample_rate_witness :
    applySampleRate (some 1) [(ATTRIBUTES_SAMPLE_RATE_KEY, PyValue.float 1)]
      = [(ATTRIBUTES_SAMPLE_RATE_KEY, PyValue.float 1)]
    ∧ dictLookup (applySampleRate (some (1/2)) []) ATTRIBUTES_SAMPLE_RATE_KEY
      = some (PyValue.float (1/2))
    ∧ dictLookup
        (applySampleRate Option.none [(ATTRIBUTES_SAMPLE_RATE_KEY, PyValue.float (1/2))])
        ATTRIBUTES_SAMPLE_RATE_KEY = some (PyValue.float (1/2))
    ∧ dictLookup
        (applySampleRate Option.none [(ATTRIBUTES_SAMPLE_RATE_KEY, PyValue.float 1)])
        ATTRIBUTES_SAMPLE_RATE_KEY = Option.none
    ∧ applySampleRate Option.none [] = [] := by
  have h1 := c9_sample_rate (1/2) (PyValue.float (1/2))
    [(ATTRIBUTES_SAMPLE_RATE_KEY, PyValue.float (1/2))] (by decide)
  have h2 := c9_sample_rate (1/2) (PyValue.float 1)
    [(ATTRIBUTES_SAMPLE_RATE_KEY, PyValue.float 1)] (by decide)
  have h3 := c9_sample_rate (1/2) (PyValue.float 1) [] (by decide)
  exact ⟨h2.1, h3.2.1 (by norm_num), h1.2.2.1 (by simp [dictLookup]) (by norm_num [PyValue.ne1]),
    h2.2.2.2.1 (by decide) (by decide), h3.2.2.2.2 rfl⟩

theorem map_fst_dictMerge_not_mem (a b : PyDict) (k : String)
    (ha : k ∉ a.map Prod.fst) (hb : k ∉ b.map Prod.fst) :
    k ∉ (dictMerge a b).map Prod.fst := by
  induction b generalizing a with
  | nil => exact ha
  | cons kv rest ih =>
      simp only [List.map_cons, List.mem_cons, not_or] at hb
      have step : dictMerge a (kv :: rest) = dictMerge (dictSet a kv.1 kv.2) rest := rfl
      rw [step]
      apply ih
      · intro hmem
        rcases map_fst_dictSet_mem _ _ _ _ hmem with h | h
        · exact hb.1 h
        · exact ha h
      · exact hb.2

theorem merge_tags_snd_cases (attributes : PyDict) (tags : List String) :
    (_merge_tags_into_attributes attributes tags).2 = attributes
    ∨ (_merge_tags_into_attributes attributes tags).2
        = attributes.filter (fun kv => kv.1 ≠ ATTRIBUTES_TAGS_KEY) := by
  rcases hl : dictLookup attributes ATTRIBUTES_TAGS_KEY with _ | v
  · unfold _merge_tags_into_attributes
    rw [hl]
    by_cases ht : tags.isEmpty <;> simp [ht]
  · unfold _merge_tags_into_attributes
    rw [hl]
    refine Or.inr ?_
    dsimp only
    split <;> rfl

theorem map_fst_merge_tags_not_mem (attributes : PyDict) (tags : List String)
    (k : String) (h : k ∉ attributes.map Prod.fst) :
    k ∉ ((_merge_tags_into_attributes attributes tags).2).map Prod.fst := by
  rcases merge_tags_snd_cases attributes tags with he | he <;> rw [he]
  · exact h
  · intro hmem
    rcases List.mem_map.mp hmem with ⟨kv, hkv, hfst⟩
    exact h (List.mem_map.mpr ⟨kv, List.mem_of_mem_filter hkv, hfst⟩)

theorem map_fst_user_attributes_not_mem (m : PyDict) (k : String)
    (hm : k ∉ m.map Prod.fst) (hna : k ≠ NULL_ARGS_KEY) :
    k ∉ ((user_attributes m).1).map Prod.fst := by
  have hcore : k ∉ ((userAttrsCore m).1).map Prod.fst := by
    rw [userAttrsCore_keys]
    intro hmem
    rcases List.mem_map.mp hmem with ⟨kv, hkv, hfst⟩
    exact hm (List.mem_map.mpr ⟨kv, List.mem_of_mem_filter hkv, hfst⟩)
  unfold user_attributes
  by_cases hn : ((userAttrsCore m).2.1).isEmpty
  · simpa [hn] using hcore
  · simp only [hn, Bool.false_eq_true, if_false]
    intro hmem
    rcases map_fst_dictSet_mem _ _ _ _ hmem with h | h
    · exact hna h
    · exact hcore h

theorem log_pipeline_lookup (inst : Option ℚ) (base extra : PyDict)
    (js : Option String) (tg : Option (List String)) (key : String)
    (hextra : key ∉ extra.map Prod.fst)
    (hsr : key ≠ ATTRIBUTES_SAMPLE_RATE_KEY) (htag : key ≠ ATTRIBUTES_TAGS_KEY)
    (hjs : key ≠ ATTRIBUTES_JSON_SCHEMA_KEY) :
    dictLookup (applySampleRate inst
      (match tg with
       | some ts =>
           dictSet (match js with
             | some s =>
                 dictSet (dictMerge base extra) ATTRIBUTES_JSON_SCHEMA_KEY (PyValue.str s)
             | Option.none => dictMerge base extra)
             ATTRIBUTES_TAGS_KEY (PyValue.strList ts)
       | Option.none =>
           match js with
           | some s =>
               dictSet (dictMerge base extra) ATTRIBUTES_JSON_SCHEMA_KEY (PyValue.str s)
           | Option.none => dictMerge base extra)) key
      = dictLookup base key := by
  rw [applySampleRate_lookup_ne _ _ _ hsr]
  cases tg with
  | none =>
      cases js with
      | none => exact dictMerge_lookup_not_mem _ _ _ hextra
      | some s =>
          dsimp only
          rw [dictLookup_dictSet_ne _ _ _ _ (Ne.symm hjs)]
          exact dictMerge_lookup_not_mem _ _ _ hextra
  | some ts =>
      cases js with
      | none =>
          dsimp only
          rw [dictLookup_dictSet_ne _ _ _ _ (Ne.symm htag)]
          exact dictMerge_lookup_not_mem _ _ _ hextra
      | some s =>
          dsimp only
          rw [dictLookup_dictSet_ne _ _ _ _ (Ne.symm htag),
            dictLookup_dictSet_ne _ _ _ _ (Ne.symm hjs)]
          exact dictMerge_lookup_not_mem _ _ _ hextra

/-- **C10**: a `log` call with a level name outside the known set does not
fail — it emits the `Invalid log level` warning, coerces the level to
`error`, and still emits the record at that level (status OK,
zero duration), provided the caller's attributes do not themselves override
the reserved level keys. -/
theorem c10_invalid_level (lf : Logfire) (ext : LogExternals) (tmpl : String)
    (attrs : PyDict) (level : String)
    (hlevel : levelNumber level = Option.none)
    (hname1 : ATTRIBUTES_LOG_LEVEL_NAME_KEY ∉ ext.stackInfo.map Prod.fst)
    (hname2 : ATTRIBUTES_LOG_LEVEL_NAME_KEY ∉ attrs.map Prod.fst)
    (hnum1 : ATTRIBUTES_LOG_LEVEL_NUM_KEY ∉ ext.stackInfo.map Prod.fst)
    (hnum2 : ATTRIBUTES_LOG_LEVEL_NUM_KEY ∉ attrs.map Prod.fst) :
    "Invalid log level" ∈ (lf.log ext level tmpl attrs).warnings
    ∧ dictLookup (lf.log ext level tmpl attrs).record.attributes
        ATTRIBUTES_LOG_LEVEL_NAME_KEY = some (PyValue.str "error")
    ∧ dictLookup (lf.log ext level tmpl attrs).record.attributes
        ATTRIBUTES_LOG_LEVEL_NUM_KEY = some (PyValue.int 17)
    ∧ (lf.log ext level tmpl attrs).record.statusOk = true
    ∧ (lf.log ext level tmpl attrs).record.endTime
        = (lf.log ext level tmpl attrs).record.startTime := by
  have hl' : (if (levelNumber level).isNone then "error" else level) = "error" := by
    rw [hlevel]
    rfl
  have hmergedName : ATTRIBUTES_LOG_LEVEL_NAME_KEY
      ∉ ((user_attributes
          (_merge_tags_into_attributes (dictMerge ext.stackInfo attrs) lf.tags).2).1).map
        Prod.fst := by
    apply map_fst_user_attributes_not_mem
    · apply map_fst_merge_tags_not_mem
      exact map_fst_dictMerge_not_mem _ _ _ hname1 hname2
    · decide
  have hmergedNum : ATTRIBUTES_LOG_LEVEL_NUM_KEY
      ∉ ((user_attributes
          (_merge_tags_into_attributes (dictMerge ext.stackInfo attrs) lf.tags).2).1).map
        Prod.fst := by
    apply map_fst_user_attributes_not_mem
    · apply map_fst_merge_tags_not_mem
      exact map_fst_dictMerge_not_mem _ _ _ hnum1 hnum2
    · decide
  have hpipeName := log_pipeline_lookup lf.sample_rate
    (logBaseAttributes (if (levelNumber level).isNone then "error" else level)
      ((levelNumber (if (levelNumber level).isNone then "error" else level)).getD 0)
      tmpl
      (ext.fmt tmpl (_merge_tags_into_attributes (dictMerge ext.stackInfo attrs) lf.tags).2))
    (user_attributes
      (_merge_tags_into_attributes (dictMerge ext.stackInfo attrs) lf.tags).2).1
    ext.jsonSchema
    (_merge_tags_into_attributes (dictMerge ext.stackInfo attrs) lf.tags).1
    ATTRIBUTES_LOG_LEVEL_NAME_KEY hmergedName (by decide) (by decide) (by decide)
  have hpipeNum := log_pipeline_lookup lf.sample_rate
    (logBaseAttributes (if (levelNumber level).isNone then "error" else level)
      ((levelNumber (if (levelNumber level).isNone then "error" else level)).getD 0)
      tmpl
      (ext.fmt tmpl (_merge_tags_into_attributes (dictMerge ext.stackInfo attrs) lf.tags).2))
    (user_attributes
      (_merge_tags_into_attributes (dictMerge ext.stackInfo attrs) lf.tags).2).1
    ext.jsonSchema
    (_merge_tags_into_attributes (dictMerge ext.stackInfo attrs) lf.tags).1
    ATTRIBUTES_LOG_LEVEL_NUM_KEY hmergedNum (by decide) (by decide) (by decide)
  refine ⟨?_, ?_, ?_, rfl, rfl⟩
  · have hw : (lf.log ext level tmpl attrs).warnings
        = "Invalid log level"
          :: (user_attributes
              (_merge_tags_into_attributes (dictMerge ext.stackInfo attrs) lf.tags).2).2 := by
      unfold Logfire.log
      rw [hlevel]
      rfl
    rw [hw]
    exact List.mem_cons_self _ _
  · have hbase : dictLookup
        (logBaseAttributes (if (levelNumber level).isNone then "error" else level)
          ((levelNumber (if (levelNumber level).isNone then "error" else level)).getD 0)
          tmpl
          (ext.fmt tmpl
            (_merge_tags_into_attributes (dictMerge ext.stackInfo attrs) lf.tags).2))
        ATTRIBUTES_LOG_LEVEL_NAME_KEY = some (PyValue.str "error") := by
      rw [hl']
      simp [logBaseAttributes, dictLookup, ATTRIBUTES_SPAN_TYPE_KEY,
        ATTRIBUTES_LOG_LEVEL_NAME_KEY]
    exact hpipeName.trans hbase
  · have hbase : dictLookup
        (logBaseAttributes (if (levelNumber level).isNone then "error" else level)
          ((levelNumber (if (levelNumber level).isNone then "error" else level)).getD 0)
          tmpl
          (ext.fmt tmpl
            (_merge_tags_into_attributes (dictMerge ext.stackInfo attrs) lf.tags).2))
        ATTRIBUTES_LOG_LEVEL_NUM_KEY = some (PyValue.int 17) := by
      rw [hl']
      have h17 : (levelNumber "error").getD 0 = 17 := by decide
      rw [h17]
      simp [logBaseAttributes, dictLookup, ATTRIBUTES_SPAN_TYPE_KEY,
        ATTRIBUTES_LOG_LEVEL_NAME_KEY, ATTRIBUTES_LOG_LEVEL_NUM_KEY]
    exact hpipeNum.trans hbase

/-- **C10** witness: the unknown level `verbose` on a concrete call —
the warning is emitted, the record carries level name `error` and number
`17`, has OK status and zero duration. -/
theorem c10_invalid_level_witness :
    "Invalid log level"
      ∈ (Logfire.log ⟨[], Option.none⟩ ⟨[], fun _ _ => "m", Option.none, 5⟩
          "verbose" "t" [("a", PyValue.int 1)]).warnings
    ∧ dictLookup
        (Logfire.log ⟨[], Option.none⟩ ⟨[], fun _ _ => "m", Option.none, 5⟩
          "verbose" "t" [("a", PyValue.int 1)]).record.attributes
        ATTRIBUTES_LOG_LEVEL_NAME_KEY = some (PyValue.str "error")
    ∧ dictLookup
        (Logfire.log ⟨[], Option.none⟩ ⟨[], fun _ _ => "m", Option.none, 5⟩
          "verbose" "t" [("a", PyValue.int 1)]).record.attributes
        ATTRIBUTES_LOG_LEVEL_NUM_KEY = some (PyValue.int 17)
    ∧ (Logfire.log ⟨[], Option.none⟩ ⟨[], fun _ _ => "m", Option.none, 5⟩
        "verbose" "t" [("a", PyValue.int 1)]).record.statusOk = true
    ∧ (Logfire.log ⟨[], Option.none⟩ ⟨[], fun _ _ => "m", Option.none, 5⟩
        "verbose" "t" [("a", PyValue.int 1)]).record.endTime
      = (Logfire.log ⟨[], Option.none⟩ ⟨[], fun _ _ => "m", Option.none, 5⟩
          "verbose" "t" [("a", PyValue.int 1)]).record.startTime :=
  c10_invalid_level ⟨[], Option.none⟩ ⟨[], fun _ _ => "m", Option.none, 5⟩ "t"
    [("a", PyValue.int 1)] "verbose" (by decide) (by decide) (by decide) (by decide)
    (by decide)
